import Mathlib

/-!
Shallow embedding of the email-verifier core (the batch validation pipeline of
`lib/email-validator.ts`, its client-side variant, and the `/api/verify` route
handler), together with theorems settling the specification claims.

Conventions of the embedding:
* JS strings are Lean `String`s; `email.trim().toLowerCase()` is `normalize`
  (Lean's `String.toLower` lower-cases the ASCII range, which covers the
  alphabet these checks operate on).
* The DNS-over-HTTPS resolver is a parameter `DnsEnv`: for each domain it
  yields, per record type, either a network/parse error or a response carrying
  a numeric status and the list of answer-record type codes.
* The module-level `mxCache` map is threaded as explicit state
  (`MxCache`, an association list mirroring the JS `Map`); successive batch
  invocations inside one process pass the cache from one call to the next.
* Functions that perform external lookups additionally return the list of
  domains for which an external query was issued (an instrumentation trace;
  it is not part of the source's return value, it records the I/O the source
  performs).
-/

namespace EmailVerifier

/-- Status of a classified address (`EmailStatus` in the source). -/
inductive EmailStatus where
  | valid
  | invalid
  | risky
deriving DecidableEq

/-- Result record (`EmailValidationResult` in `lib/email-validator.ts`,
without the client-only `checks` field). -/
structure EmailValidationResult where
  email : String
  status : EmailStatus
  reason : String
  suggestion : Option String := none
deriving DecidableEq

/-- Return value of `validateEmailSyntax`. -/
structure SyntaxResult where
  valid : Bool
  reason : Option String := none
deriving DecidableEq

/-- JS `s.trim()`: drop leading and trailing whitespace (the character-level
functions of this embedding recurse over `String.data` so that every
definition evaluates inside the kernel). -/
def jsTrim (s : String) : String :=
  ⟨((s.data.dropWhile Char.isWhitespace).reverse.dropWhile
      Char.isWhitespace).reverse⟩

/-- JS `s.toLowerCase()` on the alphabet these checks operate on. -/
def jsToLower (s : String) : String := ⟨s.data.map Char.toLower⟩

/-- JS `email.trim().toLowerCase()`. -/
def normalize (email : String) : String := jsToLower (jsTrim email)

/-- JS `s.split(c)` for a one-character separator, over the character
list. -/
def splitOnCharList (c : Char) : List Char → List (List Char)
  | [] => [[]]
  | a :: rest =>
    if a = c then [] :: splitOnCharList c rest
    else
      match splitOnCharList c rest with
      | [] => [[a]]
      | g :: gs => (a :: g) :: gs

/-- JS `s.split(c)` for a one-character separator. -/
def jsSplit (c : Char) (s : String) : List String :=
  (splitOnCharList c s.data).map String.mk

/-- JS `s.split('@')[0]` (first part; `""` stands for JS `undefined`,
which no caller reaches on the paths modelled here). -/
def localPartOf (s : String) : String := (jsSplit '@' s).getD 0 ""

/-- JS `s.split('@')[1]`. -/
def domainPartOf (s : String) : String := (jsSplit '@' s).getD 1 ""

/-- JS `domain.split('.').pop()` on the domain part. -/
def tldOf (s : String) : String := (jsSplit '.' (domainPartOf s)).getLastD ""

/-- JS `s.includes(pat)` over character lists. -/
def hasSub (pat : List Char) : List Char → Bool
  | [] => pat.isEmpty
  | a :: rest => pat.isPrefixOf (a :: rest) || hasSub pat rest

/-- JS `s.includes(pat)`. -/
def containsSub (s pat : String) : Bool := hasSub pat.data s.data

/-- JS `s.startsWith(c)` for a one-character argument. -/
def headIs (c : Char) (s : String) : Bool :=
  match s.data with
  | [] => false
  | a :: _ => a = c

/-- JS `s.endsWith(c)` for a one-character argument. -/
def lastIs (c : Char) (s : String) : Bool :=
  match s.data.getLast? with
  | none => false
  | some a => a = c

/-- The language of `SIMPLE_EMAIL_REGEX = /^[^\s@]+@[^\s@]+\.[^\s@]+$/`:
exactly one `@`; a non-empty whitespace-free local run before it; after it a
whitespace-free run containing a `.` that is neither its first nor its last
character (so a non-empty run stands on each side of that dot). -/
def simpleEmailMatch (s : String) : Bool :=
  match jsSplit '@' s with
  | [l, d] =>
      !l.data.isEmpty && !(l.data.any Char.isWhitespace) &&
      !(d.data.any Char.isWhitespace) &&
      ((d.data.drop 1).dropLast.contains '.')
  | _ => false

/-- Modelled from the spec: `lib/disposable-domains.ts` is not among the
source files; the spec (§2 Pattern Tables, §8) names `mailinator.com` and the
tempmail/guerrillamail/yopmail services as members of the disposable set. -/
def DISPOSABLE_DOMAINS : List String :=
  ["tempmail.com", "guerrillamail.com", "mailinator.com", "yopmail.com"]

/-- Modelled from the spec: role-based local parts listed in §4.2. -/
def ROLE_BASED_PREFIXES : List String :=
  ["info", "admin", "support", "sales", "noreply"]

/-- Modelled from the spec: the typo→correction mapping, with the example
pair the spec gives (§4.2, §8). -/
def DOMAIN_TYPOS : List (String × String) := [("gmial.com", "gmail.com")]

/-- Association-list lookup, mirroring JS `Map.get` / object indexing. -/
def lookupA {β : Type} : List (String × β) → String → Option β
  | [], _ => none
  | (k, v) :: rest, key => if k = key then some v else lookupA rest key

/-- Association-list update, mirroring JS `Map.set`. -/
def setA {β : Type} : List (String × β) → String → β → List (String × β)
  | [], k, v => [(k, v)]
  | (k', v') :: rest, k, v =>
      if k' = k then (k, v) :: rest else (k', v') :: setA rest k v

/-- `validateEmailSyntax` of `lib/email-validator.ts` (identical text in the
client-side variant). The `let trimmed`/`let [local, domain]` bindings of the
source are inlined through `normalize`, `localPartOf`, `domainPartOf`. -/
def validateEmailSyntax (email : String) : SyntaxResult :=
  if email = "" then ⟨false, some "Empty or invalid input"⟩
  else if (normalize email).length = 0 then ⟨false, some "Empty email"⟩
  else if 254 < (normalize email).length then
    ⟨false, some "Email too long (max 254 characters)"⟩
  else if !((normalize email).data.contains '@') then
    ⟨false, some "Missing @ symbol"⟩
  else if (jsSplit '@' (normalize email)).length ≠ 2 then
    ⟨false, some "Multiple @ symbols"⟩
  else if (localPartOf (normalize email)).length = 0 then
    ⟨false, some "Empty local part (before @)"⟩
  else if 64 < (localPartOf (normalize email)).length then
    ⟨false, some "Local part too long (max 64 characters)"⟩
  else if (domainPartOf (normalize email)).length = 0 then
    ⟨false, some "Empty domain part (after @)"⟩
  else if !((domainPartOf (normalize email)).data.contains '.') then
    ⟨false, some "Domain missing TLD"⟩
  else if (tldOf (normalize email)).length < 2 then ⟨false, some "Invalid TLD"⟩
  else if headIs '.' (localPartOf (normalize email)) ||
      lastIs '.' (localPartOf (normalize email)) then
    ⟨false, some "Local part cannot start or end with a dot"⟩
  else if containsSub (localPartOf (normalize email)) ".." then
    ⟨false, some "Local part cannot have consecutive dots"⟩
  else if headIs '.' (domainPartOf (normalize email)) ||
      headIs '-' (domainPartOf (normalize email)) then
    ⟨false, some "Domain cannot start with dot or hyphen"⟩
  else if lastIs '-' (domainPartOf (normalize email)) then
    ⟨false, some "Domain cannot end with hyphen"⟩
  else if !(simpleEmailMatch (normalize email)) then
    ⟨false, some "Invalid email format"⟩
  else ⟨true, none⟩

/-- `checkDisposable` (server variant: takes the domain). -/
def checkDisposable (domain : String) : Bool := DISPOSABLE_DOMAINS.contains domain

/-- `checkRoleBased` (server variant: takes the local part). -/
def checkRoleBased (lp : String) : Bool := ROLE_BASED_PREFIXES.contains lp

/-- `checkTypo` (server variant): `DOMAIN_TYPOS[domain] || null`; all table
values are non-empty strings, so `|| null` is plain lookup. -/
def checkTypo (domain : String) : Option String := lookupA DOMAIN_TYPOS domain

/-- `validateEmailSync` of `lib/email-validator.ts`. -/
def validateEmailSync (email : String) : EmailValidationResult :=
  if !(validateEmailSyntax email).valid then
    { email := normalize email, status := .invalid,
      reason := (validateEmailSyntax email).reason.getD "Invalid email syntax" }
  else
    match checkTypo (domainPartOf (normalize email)) with
    | some typoSuggestion =>
        { email := normalize email, status := .risky,
          reason := "Possible typo in domain",
          suggestion := some (localPartOf (normalize email) ++ "@" ++ typoSuggestion) }
    | none =>
        if checkDisposable (domainPartOf (normalize email)) then
          { email := normalize email, status := .invalid,
            reason := "Disposable/temporary email address" }
        else if checkRoleBased (localPartOf (normalize email)) then
          { email := normalize email, status := .risky,
            reason := "Role-based email address (generic)" }
        else
          { email := normalize email, status := .valid,
            reason := "Pending MX verification" }

/-- One DNS-over-HTTPS fetch outcome: a thrown error (network failure,
timeout, malformed JSON), or a parsed response with its `Status` number and
the `type` codes of its `Answer` records (`[]` models a missing or empty
`Answer` array; MX records have type code 15). -/
inductive FetchResult where
  | err : FetchResult
  | resp (status : Nat) (answer : List Nat) : FetchResult
deriving DecidableEq

/-- The external resolver: per domain, the outcome of the `type=MX` query and
of the `type=A` query. -/
structure DnsEnv where
  mx : String → FetchResult
  a : String → FetchResult

/-- The module-level `mxCache : Map<string, boolean>`, as an association
list. -/
abbrev MxCache := List (String × Bool)

/-- `checkMXRecord` of `lib/email-validator.ts`, with the module-level cache
threaded explicitly. Returns the value of the source's promise, the cache
after the call, and the instrumentation trace: the domains externally queried
by this call (`[domain]` on a cache miss, `[]` on a hit). The source's
try/catch maps error outcomes of either fetch to the optimistic `true`. -/
def checkMXRecord (env : DnsEnv) (cache : MxCache) (domain : String) :
    Bool × MxCache × List String :=
  match lookupA cache domain with
  | some b => (b, cache, [])
  | none =>
    match env.mx domain with
    | .err => (true, setA cache domain true, [domain])
    | .resp st ans =>
      if st = 0 && !ans.isEmpty && ans.contains 15 then
        (true, setA cache domain true, [domain])
      else
        match env.a domain with
        | .err => (true, setA cache domain true, [domain])
        | .resp st2 ans2 =>
          let hasA := st2 = 0 && !ans2.isEmpty
          (hasA, setA cache domain hasA, [domain])

/-- The condition guarding step 2 and step 4 of `validateEmailBatch`:
`result.status === 'valid' && result.reason === 'Pending MX verification'`. -/
def pendingP (r : EmailValidationResult) : Bool :=
  decide (r.status = EmailStatus.valid) &&
  decide (r.reason = "Pending MX verification")

/-- JS `Set.add`: insertion-ordered, ignoring duplicates. -/
def insertUniq (acc : List String) (d : String) : List String :=
  if acc.contains d then acc else acc ++ [d]

/-- The insertion-ordered contents of the `domainsToCheck` set. -/
def dedupKeep (ds : List String) : List String := ds.foldl insertUniq []

/-- Step 1 of `validateEmailBatch`. -/
def syncStage (emails : List String) : List EmailValidationResult :=
  emails.map validateEmailSync

/-- Step 2 of `validateEmailBatch`: the distinct domains of the results still
pending MX verification, in first-occurrence order. -/
def batchDomainList (emails : List String) : List String :=
  dedupKeep (((syncStage emails).filter pendingP).map fun r => domainPartOf r.email)

/-- Step 3 of `validateEmailBatch`: resolve each collected domain through
`checkMXRecord`, accumulating the `domainResults` map, the cache, and the
trace of external queries. The source runs the lookups in groups of 20 under
`Promise.all`; the domains are pairwise distinct and the cache keys they read
and write never overlap inside a group, so the sequential order used here
computes the same `domainResults` map. -/
def resolveDomains (env : DnsEnv) :
    MxCache → List String → List (String × Bool) × MxCache × List String
  | cache, [] => ([], cache, [])
  | cache, d :: ds =>
    let r := checkMXRecord env cache d
    let rest := resolveDomains env r.2.1 ds
    ((d, r.1) :: rest.1, rest.2.1, r.2.2 ++ rest.2.2)

/-- Steps 2–3 packaged: the `domainResults` map of a batch invocation plus
the cache and trace it leaves behind. -/
def batchResolved (env : DnsEnv) (cache : MxCache) (emails : List String) :
    List (String × Bool) × MxCache × List String :=
  resolveDomains env cache (batchDomainList emails)

/-- Step 4 of `validateEmailBatch`, per result: a pending result is
downgraded to `invalid` when its domain resolved to `false`, and otherwise
finalized with reason `"All checks passed"`; non-pending results pass through
untouched. -/
def finalizeResult (resolved : List (String × Bool)) (r : EmailValidationResult) :
    EmailValidationResult :=
  if pendingP r then
    match lookupA resolved (domainPartOf r.email) with
    | some false =>
        { r with status := .invalid, reason := "Domain has no mail server (no MX record)" }
    | _ => { r with reason := "All checks passed" }
  else r

/-- `validateEmailBatch` of `lib/email-validator.ts`: the result list, the
cache after the invocation, and the trace of external queries. -/
def validateEmailBatch (env : DnsEnv) (cache : MxCache) (emails : List String) :
    List EmailValidationResult × MxCache × List String :=
  ((syncStage emails).map (finalizeResult (batchResolved env cache emails).1),
   (batchResolved env cache emails).2.1,
   (batchResolved env cache emails).2.2)

/-! The client-side validator (the second `email-validator` source file):
per-address `validateEmail` with a `checks` score-card, a cache-less
`checkMXRecord` that returns `exists := false` on error, and helpers that
lower-case but do not trim their argument. -/

/-- The `checks` field of the client-side result record (`syntax` renamed to
`syntaxOk`). -/
structure Checks where
  syntaxOk : Bool
  mxRecord : Bool
  disposable : Bool
  roleBased : Bool
  typo : Bool
deriving DecidableEq

/-- The client-side `EmailValidationResult` (the `records` strings of the MX
response are dropped; only `exists` feeds the classification). -/
structure EmailValidationResult001 where
  email : String
  status : EmailStatus
  reason : String
  suggestion : Option String := none
  checks : Checks
deriving DecidableEq

/-- Client-side `checkDisposable(email)`: lower-cases (without trimming) and
splits. -/
def checkDisposable001 (email : String) : Bool :=
  DISPOSABLE_DOMAINS.contains (domainPartOf (jsToLower email))

/-- Client-side `checkRoleBased(email)`. -/
def checkRoleBased001 (email : String) : Bool :=
  ROLE_BASED_PREFIXES.contains (localPartOf (jsToLower email))

/-- Client-side `checkTypo(email)`. -/
def checkTypo001 (email : String) : Option String :=
  lookupA DOMAIN_TYPOS (domainPartOf (jsToLower email))

/-- Client-side `getDomain(email)`. -/
def getDomain (email : String) : String := domainPartOf (jsToLower email)

/-- Client-side `checkMXRecord(domain).exists`: no cache, no timeout signal,
`false` on error; when the MX response has a non-empty answer it reports
whether a type-15 record is among them without consulting A records. -/
def checkMXRecord001 (env : DnsEnv) (domain : String) : Bool :=
  match env.mx domain with
  | .err => false
  | .resp st ans =>
    if st = 0 && !ans.isEmpty then
      !(ans.filter (fun t => t = 15)).isEmpty
    else
      match env.a domain with
      | .err => false
      | .resp st2 ans2 => st2 = 0 && !ans2.isEmpty

/-- Client-side `validateEmail`: the mutable result record of the source is
rendered by returning, on each early-exit path, the record as mutated up to
that point. -/
def validateEmail001 (env : DnsEnv) (email : String) : EmailValidationResult001 :=
  if !(validateEmailSyntax email).valid then
    { email := normalize email, status := .invalid,
      reason := (validateEmailSyntax email).reason.getD "Invalid email syntax",
      checks := ⟨false, false, false, false, false⟩ }
  else
    match checkTypo001 email with
    | some typoSuggestion =>
        { email := normalize email, status := .risky,
          reason := "Possible typo in domain",
          suggestion := some (localPartOf email ++ "@" ++ typoSuggestion),
          checks := ⟨true, false, false, false, false⟩ }
    | none =>
        if checkDisposable001 email then
          { email := normalize email, status := .invalid,
            reason := "Disposable/temporary email address",
            checks := ⟨true, false, false, false, true⟩ }
        else if checkRoleBased001 email then
          { email := normalize email, status := .risky,
            reason := "Role-based email address (generic)",
            checks := ⟨true, false, true, false, true⟩ }
        else if !(checkMXRecord001 env (getDomain email)) then
          { email := normalize email, status := .invalid,
            reason := "Domain has no mail server (no MX record)",
            checks := ⟨true, false, true, true, true⟩ }
        else
          { email := normalize email, status := .valid,
            reason := "All checks passed",
            checks := ⟨true, true, true, true, true⟩ }

/-- Client-side `validateEmailBatch`: chunks of 50 processed in order (the
progress callback and inter-chunk delay do not affect the values). -/
def validateEmailBatch001 (env : DnsEnv) (emails : List String) :
    List EmailValidationResult001 :=
  match emails with
  | [] => []
  | e :: rest =>
      ((e :: rest).take 50).map (validateEmail001 env) ++
        validateEmailBatch001 env ((e :: rest).drop 50)
termination_by emails.length
decreasing_by
  simp only [List.length_drop, List.length_cons]
  omega

/-! The `/api/verify` route handler (`POST` of `app/api/verify/route.ts`). -/

/-- The `emails` field of the parsed request body: absent or falsy, present
but not an array, or an array of strings. -/
inductive RequestBody where
  | missing
  | notArray
  | arr (emails : List String)

/-- The `summary` object of a successful response. -/
structure Summary where
  total : Nat
  valid : Nat
  invalid : Nat
  risky : Nat
deriving DecidableEq

/-- The JSON responses `POST` can produce. -/
inductive PostResponse where
  | errResp (code : Nat) (msg : String)
  | okResp (summary : Summary) (results : List EmailValidationResult)
deriving DecidableEq

/-- Projection: the summary of a success response (defaults on errors). -/
def summaryOf : PostResponse → Summary
  | .okResp s _ => s
  | .errResp _ _ => ⟨0, 0, 0, 0⟩

/-- Projection: the result list of a success response. -/
def resultsOf : PostResponse → List EmailValidationResult
  | .okResp _ rs => rs
  | .errResp _ _ => []

/-- Whether a response is the success shape. -/
def isOk : PostResponse → Bool
  | .okResp _ _ => true
  | .errResp _ _ => false

/-- `POST` of `app/api/verify/route.ts`: input guards, then
`validateEmailBatch`, then the counted summary. Returns the response plus
the cache and external-query trace of the invocation (both unchanged/empty
when a guard rejects, since the core is never invoked there). -/
def POST (env : DnsEnv) (cache : MxCache) (body : RequestBody) :
    PostResponse × MxCache × List String :=
  match body with
  | .missing => (.errResp 400 "Invalid request: emails array required", cache, [])
  | .notArray => (.errResp 400 "Invalid request: emails array required", cache, [])
  | .arr emails =>
    if emails.length = 0 then (.errResp 400 "No emails provided", cache, [])
    else if 5000 < emails.length then
      (.errResp 400 "Batch too large. Maximum 5000 emails per request.", cache, [])
    else
      let r := validateEmailBatch env cache emails
      (.okResp
        { total := r.1.length,
          valid := (r.1.filter fun x => decide (x.status = .valid)).length,
          invalid := (r.1.filter fun x => decide (x.status = .invalid)).length,
          risky := (r.1.filter fun x => decide (x.status = .risky)).length }
        r.1,
       r.2.1, r.2.2)

/-- Default result used with `List.getD` when indexing result lists. -/
def defaultResult : EmailValidationResult :=
  { email := "", status := .invalid, reason := "" }

/-- A resolver for which every MX query answers a single MX record. -/
def envYes : DnsEnv := ⟨fun _ => .resp 0 [15], fun _ => .resp 0 []⟩

/-- A resolver that answers every query with an empty answer section. -/
def envNo : DnsEnv := ⟨fun _ => .resp 0 [], fun _ => .resp 0 []⟩

/-- A resolver on which every query throws (unreachable resolver). -/
def envErr : DnsEnv := ⟨fun _ => .err, fun _ => .err⟩

/-- A resolver answering no MX records but an A record for every domain. -/
def envAOnly : DnsEnv := ⟨fun _ => .resp 0 [], fun _ => .resp 0 [1]⟩

/-- An error-free resolver realizing a fixed per-domain mailability answer:
an MX record exactly for the mailable domains, never an A record. -/
def envOfMails (mails : String → Bool) : DnsEnv :=
  ⟨fun d => .resp 0 (if mails d then [15] else []), fun _ => .resp 0 []⟩

/-! An explicit rule-pipeline reading of the syntax validator: the ordered
list of rejection rules actually implemented, each producing its reason when
it fires, evaluated first-to-fire. -/

/-- The rejection rules of `validateEmailSyntax`, in the source's order. -/
def syntaxRules : List (String → Option String) :=
  [ fun e => if e = "" then some "Empty or invalid input" else none,
    fun e => if (normalize e).length = 0 then some "Empty email" else none,
    fun e => if 254 < (normalize e).length then
        some "Email too long (max 254 characters)" else none,
    fun e => if !((normalize e).data.contains '@') then
        some "Missing @ symbol" else none,
    fun e => if (jsSplit '@' (normalize e)).length ≠ 2 then
        some "Multiple @ symbols" else none,
    fun e => if (localPartOf (normalize e)).length = 0 then
        some "Empty local part (before @)" else none,
    fun e => if 64 < (localPartOf (normalize e)).length then
        some "Local part too long (max 64 characters)" else none,
    fun e => if (domainPartOf (normalize e)).length = 0 then
        some "Empty domain part (after @)" else none,
    fun e => if !((domainPartOf (normalize e)).data.contains '.') then
        some "Domain missing TLD" else none,
    fun e => if (tldOf (normalize e)).length < 2 then some "Invalid TLD" else none,
    fun e => if headIs '.' (localPartOf (normalize e)) ||
        lastIs '.' (localPartOf (normalize e)) then
        some "Local part cannot start or end with a dot" else none,
    fun e => if containsSub (localPartOf (normalize e)) ".." then
        some "Local part cannot have consecutive dots" else none,
    fun e => if headIs '.' (domainPartOf (normalize e)) ||
        headIs '-' (domainPartOf (normalize e)) then
        some "Domain cannot start with dot or hyphen" else none,
    fun e => if lastIs '-' (domainPartOf (normalize e)) then
        some "Domain cannot end with hyphen" else none,
    fun e => if !(simpleEmailMatch (normalize e)) then
        some "Invalid email format" else none ]

/-- Run an ordered rule list: the first rule that fires supplies the reason;
an input on which no rule fires is valid. -/
def runRules : List (String → Option String) → String → SyntaxResult
  | [], _ => ⟨true, none⟩
  | r :: rs, e =>
    match r e with
    | some reason => ⟨false, some reason⟩
    | none => runRules rs e

/-- The syntax validator as a first-failing-rule pipeline. -/
def validateEmailSyntaxPipeline (e : String) : SyntaxResult :=
  runRules syntaxRules e

/-- Batch finalization against a fixed per-domain mailability answer;
used to relate the deduplicating batch pipeline to the naive per-address
pipeline. -/
def finalizeWith (mails : String → Bool) (r : EmailValidationResult) :
    EmailValidationResult :=
  if pendingP r then
    if mails (domainPartOf r.email) then { r with reason := "All checks passed" }
    else { r with status := .invalid, reason := "Domain has no mail server (no MX record)" }
  else r

/-- Field-wise agreement between a server-side and a client-side result,
ignoring the client-only `checks` field. -/
def sameOutcome (r : EmailValidationResult) (v : EmailValidationResult001) : Prop :=
  r.email = v.email ∧ r.status = v.status ∧ r.reason = v.reason ∧
    r.suggestion = v.suggestion

/-! Helper lemmas. -/

theorem runRules_cons (r : String → Option String)
    (rs : List (String → Option String)) (e : String) :
    runRules (r :: rs) e =
      (match r e with
       | some reason => SyntaxResult.mk false (some reason)
       | none => runRules rs e) := rfl

theorem runRules_nil (e : String) : runRules [] e = ⟨true, none⟩ := rfl

theorem getD_map {α β : Type} (f : α → β) (l : List α) (i : Nat) (d₀ : α)
    (d₁ : β) (h : i < l.length) : (l.map f).getD i d₁ = f (l.getD i d₀) := by
  rw [List.getD_eq_getElem _ _ (by simpa using h), List.getD_eq_getElem _ _ h,
    List.getElem_map]

theorem pendingP_eq_true {r : EmailValidationResult} :
    pendingP r = true ↔
      (r.status = .valid ∧ r.reason = "Pending MX verification") := by
  simp [pendingP]

theorem validateEmailSync_email (e : String) :
    (validateEmailSync e).email = normalize e := by
  unfold validateEmailSync
  split
  · rfl
  · split
    · rfl
    · split
      · rfl
      · split <;> rfl

theorem finalizeResult_email (res : List (String × Bool))
    (r : EmailValidationResult) : (finalizeResult res r).email = r.email := by
  unfold finalizeResult
  split
  · split <;> rfl
  · rfl

theorem finalizeResult_suggestion (res : List (String × Bool))
    (r : EmailValidationResult) :
    (finalizeResult res r).suggestion = r.suggestion := by
  unfold finalizeResult
  split
  · split <;> rfl
  · rfl

theorem finalizeResult_not_pending {res : List (String × Bool)}
    {r : EmailValidationResult} (h : pendingP r = false) :
    finalizeResult res r = r := by
  unfold finalizeResult
  simp [h]

theorem validateEmailSync_status_valid {e : String} :
    (validateEmailSync e).status = .valid →
      pendingP (validateEmailSync e) = true := by
  unfold validateEmailSync
  split
  · intro h; simp at h
  · split
    · intro h; simp at h
    · split
      · intro h; simp at h
      · split
        · intro h; simp at h
        · intro _; simp [pendingP]

theorem validateEmailSync_risky {e : String} :
    (validateEmailSync e).status = .risky →
      (validateEmailSync e).suggestion.isSome = true ∨
        (validateEmailSync e).reason = "Role-based email address (generic)" := by
  unfold validateEmailSync
  split
  · intro h; simp at h
  · split
    · intro _; left; rfl
    · split
      · intro h; simp at h
      · split
        · intro _; right; rfl
        · intro h; simp at h

theorem pendingP_validateEmailSync (e : String) :
    pendingP (validateEmailSync e) = true ↔
      ((validateEmailSyntax e).valid = true ∧
        checkTypo (domainPartOf (normalize e)) = none ∧
        checkDisposable (domainPartOf (normalize e)) = false ∧
        checkRoleBased (localPartOf (normalize e)) = false) := by
  unfold validateEmailSync
  split
  · rename_i hv
    rw [Bool.not_eq_true'] at hv
    simp [pendingP, hv]
  · rename_i hv
    rw [Bool.not_eq_true, Bool.not_eq_false'] at hv
    split
    · rename_i c hc
      simp [pendingP, hc, hv]
    · rename_i hc
      split
      · rename_i hd
        simp [pendingP, hc, hd, hv]
      · rename_i hd
        rw [Bool.not_eq_true] at hd
        split
        · rename_i hr
          simp [pendingP, hc, hd, hr, hv]
        · rename_i hr
          rw [Bool.not_eq_true] at hr
          simp [pendingP, hc, hd, hr, hv]

theorem mem_setA {β : Type} {l : List (String × β)} {k : String} {v : β}
    {p : String × β} (h : p ∈ setA l k v) : p ∈ l ∨ p = (k, v) := by
  induction l with
  | nil => simpa [setA] using h
  | cons q rest ih =>
    unfold setA at h
    split at h
    · rcases List.mem_cons.mp h with h | h
      · right; exact h
      · left; exact List.mem_cons_of_mem _ h
    · rcases List.mem_cons.mp h with h | h
      · left; exact h ▸ List.mem_cons_self _ _
      · rcases ih h with h | h
        · left; exact List.mem_cons_of_mem _ h
        · right; exact h

theorem lookupA_mem {β : Type} {l : List (String × β)} {k : String} {b : β}
    (h : lookupA l k = some b) : (k, b) ∈ l := by
  induction l with
  | nil => simp [lookupA] at h
  | cons q rest ih =>
    unfold lookupA at h
    split at h
    · obtain ⟨rfl⟩ : q.2 = b := by simpa using h
      rename_i heq
      have : q = (k, q.2) := by
        rcases q with ⟨qk, qv⟩
        simp_all
      exact this ▸ List.mem_cons_self _ _
    · exact List.mem_cons_of_mem _ (ih h)

theorem lookupA_isSome_of_key {β : Type} {l : List (String × β)} {k : String}
    (h : k ∈ l.map Prod.fst) : (lookupA l k).isSome = true := by
  induction l with
  | nil => simp at h
  | cons q rest ih =>
    unfold lookupA
    split
    · rfl
    · rename_i hne
      rcases List.mem_map.mp h with ⟨p, hp, hpk⟩
      rcases List.mem_cons.mp hp with rfl | hp
      · exact absurd hpk hne
      · exact ih (List.mem_map.mpr ⟨p, hp, hpk⟩)

theorem resolveDomains_keys (env : DnsEnv) (ds : List String) :
    ∀ cache : MxCache, (resolveDomains env cache ds).1.map Prod.fst = ds := by
  induction ds with
  | nil => intro cache; rfl
  | cons d rest ih =>
    intro cache
    unfold resolveDomains
    simp [ih]

theorem mem_insertUniq {acc : List String} {d x : String} :
    x ∈ insertUniq acc d ↔ x ∈ acc ∨ x = d := by
  unfold insertUniq
  split
  · rename_i hc
    have hd : d ∈ acc := List.elem_iff.mp hc
    constructor
    · exact Or.inl
    · rintro (h | rfl)
      · exact h
      · exact hd
  · simp

theorem insertUniq_nodup {acc : List String} {d : String} (h : acc.Nodup) :
    (insertUniq acc d).Nodup := by
  unfold insertUniq
  split
  · exact h
  · rename_i hc
    have hd : d ∉ acc := fun hm => hc (List.elem_iff.mpr hm)
    refine List.nodup_append.mpr ⟨h, List.nodup_singleton d, ?_⟩
    intro a ha had
    have haeq : a = d := by simpa using had
    exact hd (haeq ▸ ha)

theorem mem_foldl_insertUniq {x : String} (ds : List String) :
    ∀ acc : List String, x ∈ ds.foldl insertUniq acc ↔ x ∈ acc ∨ x ∈ ds := by
  induction ds with
  | nil => intro acc; simp
  | cons d rest ih =>
    intro acc
    rw [List.foldl_cons, ih, mem_insertUniq]
    simp only [List.mem_cons]
    tauto

theorem nodup_foldl_insertUniq (ds : List String) :
    ∀ acc : List String, acc.Nodup → (ds.foldl insertUniq acc).Nodup := by
  induction ds with
  | nil => intro acc h; simpa using h
  | cons d rest ih => intro acc h; exact ih _ (insertUniq_nodup h)

theorem dedupKeep_nodup (ds : List String) : (dedupKeep ds).Nodup :=
  nodup_foldl_insertUniq ds [] List.nodup_nil

theorem mem_dedupKeep {x : String} {ds : List String} :
    x ∈ dedupKeep ds ↔ x ∈ ds := by
  unfold dedupKeep
  rw [mem_foldl_insertUniq]
  simp

theorem checkMXRecord_trace (env : DnsEnv) (cache : MxCache) (d : String) :
    (checkMXRecord env cache d).2.2 = [] ∨
      (checkMXRecord env cache d).2.2 = [d] := by
  unfold checkMXRecord
  split
  · left; rfl
  · split
    · right; rfl
    · split
      · right; rfl
      · split
        · right; rfl
        · right; rfl

theorem checkMXRecord_cached {env : DnsEnv} {cache : MxCache} {d : String}
    {b : Bool} (h : lookupA cache d = some b) :
    checkMXRecord env cache d = (b, cache, []) := by
  unfold checkMXRecord
  rw [h]

theorem resolveDomains_trace_count (env : DnsEnv) (d : String)
    (ds : List String) : ∀ cache : MxCache,
    ((resolveDomains env cache ds).2.2).count d ≤ ds.count d := by
  induction ds with
  | nil => intro cache; simp [resolveDomains]
  | cons d' rest ih =>
    intro cache
    unfold resolveDomains
    simp only [List.count_append, List.count_cons]
    have h1 : ((checkMXRecord env cache d').2.2).count d ≤
        if (d' == d) = true then 1 else 0 := by
      rcases checkMXRecord_trace env cache d' with h | h <;> rw [h]
      · simp
      · simp [List.count_cons, List.count_nil]
    have h2 := ih (checkMXRecord env cache d').2.1
    omega

theorem resolveDomains_allTrue {env : DnsEnv}
    (hmx : ∀ d, env.mx d = FetchResult.err) (ds : List String) :
    ∀ cache : MxCache, (∀ p ∈ cache, p.2 = true) →
      ∀ p ∈ (resolveDomains env cache ds).1, p.2 = true := by
  induction ds with
  | nil => intro cache _ p hp; simp [resolveDomains] at hp
  | cons d rest ih =>
    intro cache hcache p hp
    have hstep : checkMXRecord env cache d = (true, (checkMXRecord env cache d).2.1, (checkMXRecord env cache d).2.2) ∧
        (∀ q ∈ (checkMXRecord env cache d).2.1, q.2 = true) := by
      unfold checkMXRecord
      rcases hl : lookupA cache d with _ | b
      · rw [hmx d]
        refine ⟨rfl, ?_⟩
        intro q hq
        rcases mem_setA hq with hq | hq
        · exact hcache q hq
        · rw [hq]
      · have hb : b = true := hcache _ (lookupA_mem hl)
        subst hb
        exact ⟨rfl, hcache⟩
    unfold resolveDomains at hp
    rcases List.mem_cons.mp hp with rfl | hp
    · have := congrArg Prod.fst hstep.1
      simpa using this
    · exact ih _ hstep.2 p hp

theorem checkMXRecord_envOfMails {mails : String → Bool} {cache : MxCache}
    (hcache : ∀ p ∈ cache, p.2 = mails p.1) (d : String) :
    (checkMXRecord (envOfMails mails) cache d).1 = mails d ∧
      (∀ q ∈ (checkMXRecord (envOfMails mails) cache d).2.1, q.2 = mails q.1) := by
  rcases hl : lookupA cache d with _ | b
  · have hres : checkMXRecord (envOfMails mails) cache d =
        (mails d, setA cache d (mails d), [d]) := by
      rcases hm : mails d <;> simp [checkMXRecord, envOfMails, hl, hm]
    rw [hres]
    refine ⟨rfl, ?_⟩
    intro q hq
    rcases mem_setA hq with hq | hq
    · exact hcache q hq
    · rw [hq]
  · rw [@checkMXRecord_cached (envOfMails mails) cache d b hl]
    exact ⟨hcache _ (lookupA_mem hl), hcache⟩

theorem resolveDomains_envOfMails {mails : String → Bool} (ds : List String) :
    ∀ cache : MxCache, (∀ p ∈ cache, p.2 = mails p.1) → ∀ d ∈ ds,
      lookupA (resolveDomains (envOfMails mails) cache ds).1 d =
        some (mails d) := by
  induction ds with
  | nil => intro cache _ d hd; simp at hd
  | cons d' rest ih =>
    intro cache hcache d hd
    unfold resolveDomains
    simp only [lookupA]
    split
    · rename_i heq
      rw [← heq, (checkMXRecord_envOfMails hcache d').1]
    · rename_i hne
      rcases List.mem_cons.mp hd with rfl | hd
      · exact absurd rfl hne
      · exact ih _ (checkMXRecord_envOfMails hcache d').2 d hd

theorem batch_length (env : DnsEnv) (cache : MxCache) (emails : List String) :
    (validateEmailBatch env cache emails).1.length = emails.length := by
  unfold validateEmailBatch syncStage
  simp

theorem batch_getD (env : DnsEnv) (cache : MxCache) (emails : List String)
    (i : Nat) (h : i < emails.length) :
    (validateEmailBatch env cache emails).1.getD i defaultResult =
      finalizeResult (batchResolved env cache emails).1
        (validateEmailSync (emails.getD i "")) := by
  unfold validateEmailBatch syncStage
  rw [getD_map _ _ _ (validateEmailSync (emails.getD i "")) _ (by simpa using h),
    getD_map _ _ _ "" _ h]

theorem mem_batchDomainList {emails : List String} {e : String}
    (he : e ∈ emails) (hp : pendingP (validateEmailSync e) = true) :
    domainPartOf (normalize e) ∈ batchDomainList emails := by
  unfold batchDomainList
  rw [mem_dedupKeep]
  refine List.mem_map.mpr ⟨validateEmailSync e, ?_, ?_⟩
  · exact List.mem_filter.mpr ⟨List.mem_map.mpr ⟨e, he, rfl⟩, hp⟩
  · rw [validateEmailSync_email]

theorem getD_mem {emails : List String} {i : Nat} (h : i < emails.length) :
    emails.getD i "" ∈ emails := by
  rw [List.getD_eq_getElem _ _ h]
  exact List.getElem_mem h

theorem finalizeResult_pending_false {res : List (String × Bool)}
    {r : EmailValidationResult} (hp : pendingP r = true)
    (hl : lookupA res (domainPartOf r.email) = some false) :
    finalizeResult res r =
      { r with status := .invalid,
               reason := "Domain has no mail server (no MX record)" } := by
  unfold finalizeResult
  rw [if_pos hp, hl]

theorem finalizeResult_pending_not_false {res : List (String × Bool)}
    {r : EmailValidationResult} (hp : pendingP r = true)
    (hl : lookupA res (domainPartOf r.email) ≠ some false) :
    finalizeResult res r = { r with reason := "All checks passed" } := by
  unfold finalizeResult
  rw [if_pos hp]
  rcases hlv : lookupA res (domainPartOf r.email) with _ | b
  · rfl
  · rcases b
    · exact absurd hlv hl
    · rfl

/-- Default client-side result used with `List.getD`. -/
def defaultResult001 : EmailValidationResult001 :=
  { email := "", status := .invalid, reason := "",
    checks := ⟨false, false, false, false, false⟩ }

theorem validateEmail001_email (env : DnsEnv) (e : String) :
    (validateEmail001 env e).email = normalize e := by
  unfold validateEmail001
  split
  · rfl
  · split
    · rfl
    · split
      · rfl
      · split
        · rfl
        · split <;> rfl

theorem validateEmailBatch001_eq_map (env : DnsEnv) (emails : List String) :
    validateEmailBatch001 env emails = emails.map (validateEmail001 env) := by
  induction emails using validateEmailBatch001.induct env with
  | case1 => rw [validateEmailBatch001]; rfl
  | case2 e rest ih =>
    rw [validateEmailBatch001, ih, ← List.map_append, List.take_append_drop]

/-! Claim theorems. -/

/-- Claim C1: for every input list, the batch classifier returns a result
list of exactly the same length, in the same order, and the i-th result's
`email` field is the trimmed, lower-cased form of the i-th input; this holds
for the server-side `validateEmailBatch` (for any resolver and starting
cache) and for the client-side chunked batch as well. -/
theorem c1_batch_preserves_order_and_normalizes (env : DnsEnv)
    (cache : MxCache) (emails : List String) :
    ((validateEmailBatch env cache emails).1.length = emails.length ∧
      ∀ i, i < emails.length →
        ((validateEmailBatch env cache emails).1.getD i defaultResult).email =
          normalize (emails.getD i "")) ∧
    ((validateEmailBatch001 env emails).length = emails.length ∧
      ∀ i, i < emails.length →
        ((validateEmailBatch001 env emails).getD i defaultResult001).email =
          normalize (emails.getD i "")) := by
  refine ⟨⟨batch_length env cache emails, ?_⟩, ?_, ?_⟩
  · intro i h
    rw [batch_getD env cache emails i h, finalizeResult_email,
      validateEmailSync_email]
  · rw [validateEmailBatch001_eq_map]
    simp
  · intro i h
    rw [validateEmailBatch001_eq_map,
      getD_map _ _ _ "" _ h, validateEmail001_email]

/-- Witness for C1 at a concrete batch. -/
theorem c1_witness :
    (validateEmailBatch envYes [] ["  USER@Example.COM  ", "bad"]).1.length = 2 ∧
    ((validateEmailBatch envYes [] ["  USER@Example.COM  ", "bad"]).1.getD 0
        defaultResult).email =
      normalize "  USER@Example.COM  " :=
  ⟨(c1_batch_preserves_order_and_normalizes envYes []
      ["  USER@Example.COM  ", "bad"]).1.1,
   (c1_batch_preserves_order_and_normalizes envYes []
      ["  USER@Example.COM  ", "bad"]).1.2 0 (by decide)⟩

/-- Claim C4, counterexample: on `".a.@b"` the local part violates the
dot rules and the domain lacks a TLD separator, and the reported reason is
the domain rule `"Domain missing TLD"`, not the local-part dot rule — the
code checks the domain/TLD rules before the local-part dot rules, contrary
to the precedence order §4.1 lists. -/
theorem c4_counterexample :
    validateEmailSyntax ".a.@b" = ⟨false, some "Domain missing TLD"⟩ ∧
    (validateEmailSyntax ".a.@b").reason ≠
      some "Local part cannot start or end with a dot" ∧
    (validateEmailSyntax ".a.@b").reason ≠
      some "Local part cannot have consecutive dots" := by
  refine ⟨by decide, by decide, by decide⟩

/-- Claim C4 as amended: `validateEmailSyntax` is a first-failing-rule
cascade, but in the source's order — empty input, trimmed-empty, overlong,
missing `@`, multiple `@`, local empty, local overlong, domain empty, domain
missing TLD, invalid TLD, local-part dot rules, domain edge characters, and
the regex catch-all; `syntaxRules` lists exactly these rules in that order
and the validator equals running them first-to-fire. In particular an input
violating both the local-part dot rules and a domain/TLD rule reports the
domain/TLD reason. -/
theorem c4_rule_order (e : String) :
    validateEmailSyntax e = validateEmailSyntaxPipeline e := by
  simp only [validateEmailSyntax, validateEmailSyntaxPipeline, syntaxRules,
    runRules_cons, runRules_nil]
  by_cases h1 : e = ""
  · simp only [if_pos h1]
  simp only [if_neg h1]
  by_cases h2 : (normalize e).length = 0
  · simp only [if_pos h2]
  simp only [if_neg h2]
  by_cases h3 : 254 < (normalize e).length
  · simp only [if_pos h3]
  simp only [if_neg h3]
  by_cases h4 : (!(normalize e).data.contains '@') = true
  · simp only [if_pos h4]
  simp only [if_neg h4]
  by_cases h5 : (jsSplit '@' (normalize e)).length ≠ 2
  · simp only [if_pos h5]
  simp only [if_neg h5]
  by_cases h6 : (localPartOf (normalize e)).length = 0
  · simp only [if_pos h6]
  simp only [if_neg h6]
  by_cases h7 : 64 < (localPartOf (normalize e)).length
  · simp only [if_pos h7]
  simp only [if_neg h7]
  by_cases h8 : (domainPartOf (normalize e)).length = 0
  · simp only [if_pos h8]
  simp only [if_neg h8]
  by_cases h9 : (!(domainPartOf (normalize e)).data.contains '.') = true
  · simp only [if_pos h9]
  simp only [if_neg h9]
  by_cases h10 : (tldOf (normalize e)).length < 2
  · simp only [if_pos h10]
  simp only [if_neg h10]
  by_cases h11 : (headIs '.' (localPartOf (normalize e)) ||
      lastIs '.' (localPartOf (normalize e))) = true
  · simp only [if_pos h11]
  simp only [if_neg h11]
  by_cases h12 : containsSub (localPartOf (normalize e)) ".." = true
  · simp only [if_pos h12]
  simp only [if_neg h12]
  by_cases h13 : (headIs '.' (domainPartOf (normalize e)) ||
      headIs '-' (domainPartOf (normalize e))) = true
  · simp only [if_pos h13]
  simp only [if_neg h13]
  by_cases h14 : lastIs '-' (domainPartOf (normalize e)) = true
  · simp only [if_pos h14]
  simp only [if_neg h14]
  by_cases h15 : (!simpleEmailMatch (normalize e)) = true
  · simp only [if_pos h15]
  simp only [if_neg h15]

/-- Claim C5: within one batch invocation, at most one external lookup is
performed per distinct domain, whatever the resolver, starting cache, and
input list. -/
theorem c5_at_most_one_lookup_per_domain (env : DnsEnv) (cache : MxCache)
    (emails : List String) (d : String) :
    ((validateEmailBatch env cache emails).2.2).count d ≤ 1 := by
  have h2 : (batchDomainList emails).count d ≤ 1 := by
    unfold batchDomainList
    exact List.nodup_iff_count_le_one.mp (dedupKeep_nodup _) d
  exact le_trans (resolveDomains_trace_count env d (batchDomainList emails) cache) h2

/-- Claim C2: when the MX query for an uncached domain errors or times out,
`checkMXRecord` returns `true` and caches that optimistic result; and when
the resolver errors on every domain, a batch started on a fresh cache marks
every syntactically valid, non-typo, non-disposable, non-role address
`valid` — never `invalid` because of the resolution failure. -/
theorem c2_optimistic_on_resolver_error :
    (∀ (env : DnsEnv) (cache : MxCache) (d : String),
        env.mx d = FetchResult.err → lookupA cache d = none →
        checkMXRecord env cache d = (true, setA cache d true, [d])) ∧
    (∀ (env : DnsEnv) (emails : List String) (i : Nat),
        (∀ d, env.mx d = FetchResult.err) → i < emails.length →
        (validateEmailSyntax (emails.getD i "")).valid = true →
        checkTypo (domainPartOf (normalize (emails.getD i ""))) = none →
        checkDisposable (domainPartOf (normalize (emails.getD i ""))) = false →
        checkRoleBased (localPartOf (normalize (emails.getD i ""))) = false →
        ((validateEmailBatch env [] emails).1.getD i defaultResult).status =
          EmailStatus.valid) := by
  constructor
  · intro env cache d hmx hnc
    unfold checkMXRecord
    rw [hnc, hmx]
  · intro env emails i hmx hi hsyn hty hdi hro
    have hp : pendingP (validateEmailSync (emails.getD i "")) = true :=
      (pendingP_validateEmailSync _).mpr ⟨hsyn, hty, hdi, hro⟩
    rw [batch_getD env [] emails i hi]
    have hre : (validateEmailSync (emails.getD i "")).email =
        normalize (emails.getD i "") := validateEmailSync_email _
    have hmem : domainPartOf (validateEmailSync (emails.getD i "")).email ∈
        batchDomainList emails := by
      rw [hre]
      exact mem_batchDomainList (getD_mem hi) hp
    have hkey : domainPartOf (validateEmailSync (emails.getD i "")).email ∈
        (batchResolved env [] emails).1.map Prod.fst := by
      rw [batchResolved, resolveDomains_keys]
      exact hmem
    obtain ⟨b, hlb⟩ := Option.isSome_iff_exists.mp (lookupA_isSome_of_key hkey)
    have hb : b = true :=
      resolveDomains_allTrue hmx (batchDomainList emails) []
        (by intro p hp'; simp at hp') _ (lookupA_mem hlb)
    rw [finalizeResult_pending_not_false hp (by rw [hlb, hb]; simp)]
    exact (pendingP_eq_true.mp hp).1

/-- Witness for C2 at a concrete unreachable resolver. -/
theorem c2_witness :
    checkMXRecord envErr [] "corp.example" =
      (true, [("corp.example", true)], ["corp.example"]) ∧
    ((validateEmailBatch envErr [] ["user@corp.example"]).1.getD 0
        defaultResult).status = EmailStatus.valid :=
  ⟨c2_optimistic_on_resolver_error.1 envErr [] "corp.example" rfl rfl,
   c2_optimistic_on_resolver_error.2 envErr ["user@corp.example"] 0
     (fun _ => rfl) (by decide) (by decide) (by decide) (by decide) (by decide)⟩

/-- Claim C3: on a syntactically valid address the pattern checks run in the
order typo, disposable, role-based, each short-circuiting the rest: a typo
match yields `risky` with the corrective suggestion regardless of the other
tables; otherwise a disposable domain yields `invalid`; otherwise a
role-based local part yields `risky`, and a batch containing that address
alone performs no domain lookup at all. -/
theorem c3_pattern_priority (email : String)
    (hs : (validateEmailSyntax email).valid = true) :
    (∀ c, checkTypo (domainPartOf (normalize email)) = some c →
        validateEmailSync email =
          { email := normalize email, status := .risky,
            reason := "Possible typo in domain",
            suggestion := some (localPartOf (normalize email) ++ "@" ++ c) }) ∧
    (checkTypo (domainPartOf (normalize email)) = none →
      checkDisposable (domainPartOf (normalize email)) = true →
        validateEmailSync email =
          { email := normalize email, status := .invalid,
            reason := "Disposable/temporary email address",
            suggestion := none }) ∧
    (checkTypo (domainPartOf (normalize email)) = none →
      checkDisposable (domainPartOf (normalize email)) = false →
      checkRoleBased (localPartOf (normalize email)) = true →
        validateEmailSync email =
          { email := normalize email, status := .risky,
            reason := "Role-based email address (generic)",
            suggestion := none } ∧
        ∀ (env : DnsEnv) (cache : MxCache),
          (validateEmailBatch env cache [email]).2.2 = []) := by
  refine ⟨?_, ?_, ?_⟩
  · intro c hc
    unfold validateEmailSync
    rw [hs]
    simp only [Bool.not_true, Bool.false_eq_true, if_false, hc]
  · intro hc hd
    unfold validateEmailSync
    rw [hs]
    simp only [Bool.not_true, Bool.false_eq_true, if_false, hc, hd, if_true]
  · intro hc hd hr
    have hrec : validateEmailSync email =
        { email := normalize email, status := .risky,
          reason := "Role-based email address (generic)", suggestion := none } := by
      unfold validateEmailSync
      rw [hs]
      simp only [Bool.not_true, Bool.false_eq_true, if_false, hc, hd, hr,
        if_true]
    refine ⟨hrec, ?_⟩
    intro env cache
    have hp : pendingP (validateEmailSync email) = false := by
      rw [hrec]
      rfl
    unfold validateEmailBatch batchResolved batchDomainList syncStage dedupKeep
    simp [hp, resolveDomains]

/-- Witness for C3: a typo domain (also listing it as disposable would not
change the verdict), a disposable domain, and a role-based local part. -/
theorem c3_witness :
    validateEmailSync "User@gmial.com " =
      { email := "user@gmial.com", status := .risky,
        reason := "Possible typo in domain",
        suggestion := some "user@gmail.com" } ∧
    validateEmailSync "person@mailinator.com" =
      { email := "person@mailinator.com", status := .invalid,
        reason := "Disposable/temporary email address", suggestion := none } ∧
    validateEmailSync "info@somecorp.example" =
      { email := "info@somecorp.example", status := .risky,
        reason := "Role-based email address (generic)", suggestion := none } ∧
    (validateEmailBatch envYes [] ["info@somecorp.example"]).2.2 = [] :=
  ⟨(c3_pattern_priority "User@gmial.com " (by decide)).1 "gmail.com" (by decide),
   (c3_pattern_priority "person@mailinator.com" (by decide)).2.1 (by decide)
     (by decide),
   ((c3_pattern_priority "info@somecorp.example" (by decide)).2.2 (by decide)
     (by decide) (by decide)).1,
   ((c3_pattern_priority "info@somecorp.example" (by decide)).2.2 (by decide)
     (by decide) (by decide)).2 envYes []⟩

/-- Claim C6: for a domain not in the cache, `checkMXRecord` consults MX
first — an answered MX record yields `true` (cached), for any behavior of
the A lookup; only without an MX answer is the A record consulted, an
existing A record yielding `true` and the absence of both yielding `false`,
each result cached. -/
theorem c6_mx_first_then_a_fallback (env : DnsEnv) (cache : MxCache)
    (d : String) (st : Nat) (ans : List Nat)
    (hnc : lookupA cache d = none) (hmx : env.mx d = FetchResult.resp st ans) :
    (st = 0 → ans ≠ [] → 15 ∈ ans →
        checkMXRecord env cache d = (true, setA cache d true, [d])) ∧
    (¬(st = 0 ∧ ans ≠ [] ∧ 15 ∈ ans) →
      ∀ st2 ans2, env.a d = FetchResult.resp st2 ans2 →
        ((st2 = 0 → ans2 ≠ [] →
            checkMXRecord env cache d = (true, setA cache d true, [d])) ∧
         (¬(st2 = 0 ∧ ans2 ≠ []) →
            checkMXRecord env cache d = (false, setA cache d false, [d])))) := by
  constructor
  · intro h0 hne h15
    have hcond : (decide (st = 0) && !ans.isEmpty && ans.contains 15) = true := by
      subst h0
      simp [List.isEmpty_iff, hne, List.elem_iff, h15]
    unfold checkMXRecord
    rw [hnc, hmx]
    simp only [hcond, if_true]
  · intro hno st2 ans2 ha
    have hcond : (decide (st = 0) && !ans.isEmpty && ans.contains 15) = false := by
      rw [Bool.eq_false_iff]
      intro h
      apply hno
      simp only [Bool.and_eq_true, decide_eq_true_eq, Bool.not_eq_true',
        List.elem_iff] at h
      refine ⟨h.1.1, ?_, h.2⟩
      intro hnil
      rw [hnil] at h
      simp at h
    constructor
    · intro h20 h2ne
      have hcond2 : (decide (st2 = 0) && !ans2.isEmpty) = true := by
        subst h20
        simp [List.isEmpty_iff, h2ne]
      unfold checkMXRecord
      rw [hnc, hmx, ha]
      simp only [hcond, Bool.false_eq_true, if_false, hcond2]
    · intro h2no
      have hcond2 : (decide (st2 = 0) && !ans2.isEmpty) = false := by
        rw [Bool.eq_false_iff]
        intro h
        apply h2no
        simp only [Bool.and_eq_true, decide_eq_true_eq,
          Bool.not_eq_true'] at h
        refine ⟨h.1, ?_⟩
        intro hnil
        rw [hnil] at h
        simp at h
      unfold checkMXRecord
      rw [hnc, hmx, ha]
      simp only [hcond, Bool.false_eq_true, if_false, hcond2]

/-- Witness for C6: an MX-answering resolver, an A-only resolver, and a
resolver answering neither. -/
theorem c6_witness :
    checkMXRecord envYes [] "mx.example" =
      (true, [("mx.example", true)], ["mx.example"]) ∧
    checkMXRecord envAOnly [] "a.example" =
      (true, [("a.example", true)], ["a.example"]) ∧
    checkMXRecord envNo [] "dead.example" =
      (false, [("dead.example", false)], ["dead.example"]) :=
  ⟨(c6_mx_first_then_a_fallback envYes [] "mx.example" 0 [15] rfl rfl).1
      rfl (by decide) (by decide),
   ((c6_mx_first_then_a_fallback envAOnly [] "a.example" 0 [] rfl rfl).2
      (by decide) 0 [1] rfl).1 rfl (by decide),
   ((c6_mx_first_then_a_fallback envNo [] "dead.example" 0 [] rfl rfl).2
      (by decide) 0 [] rfl).2 (by decide)⟩

theorem finalizeResult_risky {res : List (String × Bool)} {e : String} :
    (finalizeResult res (validateEmailSync e)).status = .risky →
      (finalizeResult res (validateEmailSync e)).suggestion.isSome = true ∨
        (finalizeResult res (validateEmailSync e)).reason =
          "Role-based email address (generic)" := by
  cases hp : pendingP (validateEmailSync e)
  · rw [finalizeResult_not_pending hp]
    exact validateEmailSync_risky
  · intro hst
    exfalso
    rcases hlv : lookupA res (domainPartOf (validateEmailSync e).email)
        with _ | b
    · rw [finalizeResult_pending_not_false hp (by rw [hlv]; simp)] at hst
      have := (pendingP_eq_true.mp hp).1
      simp only at hst
      rw [this] at hst
      exact EmailStatus.noConfusion hst
    · rcases b
      · rw [finalizeResult_pending_false hp hlv] at hst
        simp only at hst
        exact EmailStatus.noConfusion hst
      · rw [finalizeResult_pending_not_false hp (by rw [hlv]; simp)] at hst
        have := (pendingP_eq_true.mp hp).1
        simp only at hst
        rw [this] at hst
        exact EmailStatus.noConfusion hst

/-- Claim C7: each input yields exactly one outcome; every status is one of
`valid`, `invalid`, `risky`; a `risky` outcome carries a suggestion or the
role-based caveat; and a final `valid` outcome passed syntax and every
pattern check, carries reason `"All checks passed"`, and its domain resolved
to mailable (possibly by the optimistic error fallback). -/
theorem c7_outcome_invariants (env : DnsEnv) (cache : MxCache)
    (emails : List String) :
    (validateEmailBatch env cache emails).1.length = emails.length ∧
    (∀ r ∈ (validateEmailBatch env cache emails).1,
        r.status = .valid ∨ r.status = .invalid ∨ r.status = .risky) ∧
    (∀ r ∈ (validateEmailBatch env cache emails).1, r.status = .risky →
        r.suggestion.isSome = true ∨
          r.reason = "Role-based email address (generic)") ∧
    (∀ i, i < emails.length →
      ((validateEmailBatch env cache emails).1.getD i defaultResult).status =
          .valid →
        ((validateEmailSyntax (emails.getD i "")).valid = true ∧
          checkTypo (domainPartOf (normalize (emails.getD i ""))) = none ∧
          checkDisposable (domainPartOf (normalize (emails.getD i ""))) = false ∧
          checkRoleBased (localPartOf (normalize (emails.getD i ""))) = false) ∧
        ((validateEmailBatch env cache emails).1.getD i defaultResult).reason =
          "All checks passed" ∧
        lookupA (batchResolved env cache emails).1
          (domainPartOf (normalize (emails.getD i ""))) = some true) := by
  refine ⟨batch_length env cache emails, ?_, ?_, ?_⟩
  · intro r _
    cases r.status
    · exact Or.inl rfl
    · exact Or.inr (Or.inl rfl)
    · exact Or.inr (Or.inr rfl)
  · intro r hr
    unfold validateEmailBatch syncStage at hr
    rw [List.map_map] at hr
    rcases List.mem_map.mp hr with ⟨e, _, rfl⟩
    exact finalizeResult_risky
  · intro i hi hst
    rw [batch_getD env cache emails i hi] at hst ⊢
    have hre : (validateEmailSync (emails.getD i "")).email =
        normalize (emails.getD i "") := validateEmailSync_email _
    cases hp : pendingP (validateEmailSync (emails.getD i ""))
    · rw [finalizeResult_not_pending hp] at hst
      rw [validateEmailSync_status_valid hst] at hp
      exact Bool.noConfusion hp
    · have hkey : domainPartOf (normalize (emails.getD i "")) ∈
          (batchResolved env cache emails).1.map Prod.fst := by
        rw [batchResolved, resolveDomains_keys]
        exact mem_batchDomainList (getD_mem hi) hp
      obtain ⟨b, hlb⟩ := Option.isSome_iff_exists.mp (lookupA_isSome_of_key hkey)
      have hlb' : lookupA (batchResolved env cache emails).1
          (domainPartOf (validateEmailSync (emails.getD i "")).email) = some b := by
        rw [hre]
        exact hlb
      rcases b
      · exfalso
        rw [finalizeResult_pending_false hp hlb'] at hst
        simp only at hst
        exact EmailStatus.noConfusion hst
      · refine ⟨(pendingP_validateEmailSync _).mp hp, ?_, hlb⟩
        rw [finalizeResult_pending_not_false hp (by rw [hlb']; simp)]

/-- Witness for C7 on a concrete mixed batch. -/
theorem c7_witness :
    (((validateEmailBatch envYes [] ["ok@site.example"]).1.getD 0
        defaultResult).reason = "All checks passed") ∧
    lookupA (batchResolved envYes [] ["ok@site.example"]).1 "site.example" =
      some true :=
  ⟨((c7_outcome_invariants envYes [] ["ok@site.example"]).2.2.2 0 (by decide)
      (by decide)).2.1,
   ((c7_outcome_invariants envYes [] ["ok@site.example"]).2.2.2 0 (by decide)
      (by decide)).2.2⟩

theorem length_filter_statuses (rs : List EmailValidationResult) :
    rs.length =
      (rs.filter fun x => decide (x.status = EmailStatus.valid)).length +
      (rs.filter fun x => decide (x.status = EmailStatus.invalid)).length +
      (rs.filter fun x => decide (x.status = EmailStatus.risky)).length := by
  induction rs with
  | nil => rfl
  | cons r rest ih =>
    cases hst : r.status <;>
      simp only [List.filter_cons, hst, decide_True, decide_False,
        List.length_cons, if_true, if_false, ih] <;>
      simp <;> omega

/-- Claim C8: the route handler rejects a missing/non-array `emails` field,
an empty list, and an oversized list with a descriptive 400 error without
invoking the classifier (cache untouched, no external query); on accepted
input it returns the batch results together with a summary whose counts are
the per-status counts of the result list, whose `total` is the result-list
length (equal to the input length), and whose counts sum to `total`. -/
theorem c8_entry_guards_and_summary :
    (∀ (env : DnsEnv) (cache : MxCache),
        POST env cache .missing =
          (.errResp 400 "Invalid request: emails array required", cache, []) ∧
        POST env cache .notArray =
          (.errResp 400 "Invalid request: emails array required", cache, [])) ∧
    (∀ (env : DnsEnv) (cache : MxCache),
        POST env cache (.arr []) =
          (.errResp 400 "No emails provided", cache, [])) ∧
    (∀ (env : DnsEnv) (cache : MxCache) (emails : List String),
        5000 < emails.length →
        POST env cache (.arr emails) =
          (.errResp 400 "Batch too large. Maximum 5000 emails per request.",
            cache, [])) ∧
    (∀ (env : DnsEnv) (cache : MxCache) (emails : List String),
        0 < emails.length → emails.length ≤ 5000 →
        isOk (POST env cache (.arr emails)).1 = true ∧
        resultsOf (POST env cache (.arr emails)).1 =
          (validateEmailBatch env cache emails).1 ∧
        (resultsOf (POST env cache (.arr emails)).1).length = emails.length ∧
        (summaryOf (POST env cache (.arr emails)).1).total =
          (resultsOf (POST env cache (.arr emails)).1).length ∧
        (summaryOf (POST env cache (.arr emails)).1).valid =
          ((resultsOf (POST env cache (.arr emails)).1).filter
            fun x => decide (x.status = EmailStatus.valid)).length ∧
        (summaryOf (POST env cache (.arr emails)).1).invalid =
          ((resultsOf (POST env cache (.arr emails)).1).filter
            fun x => decide (x.status = EmailStatus.invalid)).length ∧
        (summaryOf (POST env cache (.arr emails)).1).risky =
          ((resultsOf (POST env cache (.arr emails)).1).filter
            fun x => decide (x.status = EmailStatus.risky)).length ∧
        (summaryOf (POST env cache (.arr emails)).1).total =
          (summaryOf (POST env cache (.arr emails)).1).valid +
          (summaryOf (POST env cache (.arr emails)).1).invalid +
          (summaryOf (POST env cache (.arr emails)).1).risky) := by
  refine ⟨fun env cache => ⟨rfl, rfl⟩, fun env cache => rfl, ?_, ?_⟩
  · intro env cache emails h5
    have hg0 : ¬(emails.length = 0) := by omega
    simp only [POST, if_neg hg0, if_pos h5]
  · intro env cache emails h0 h5
    have hg0 : ¬(emails.length = 0) := by omega
    have hg5 : ¬(5000 < emails.length) := by omega
    simp only [POST, if_neg hg0, if_neg hg5, isOk, resultsOf, summaryOf]
    refine ⟨?_, ?_, ?_, ?_, ?_, ?_, ?_, ?_⟩ <;>
      first
        | trivial
        | exact batch_length env cache emails
        | exact length_filter_statuses _

/-- Witness for C8 at a concrete accepted batch and a rejected one. -/
theorem c8_witness :
    POST envYes [] (.arr []) = (.errResp 400 "No emails provided", [], []) ∧
    isOk (POST envYes [] (.arr ["user@corp.example", "bad"])).1 = true ∧
    (summaryOf (POST envYes [] (.arr ["user@corp.example", "bad"])).1).total =
      (summaryOf (POST envYes [] (.arr ["user@corp.example", "bad"])).1).valid +
      (summaryOf (POST envYes [] (.arr ["user@corp.example", "bad"])).1).invalid +
      (summaryOf (POST envYes [] (.arr ["user@corp.example", "bad"])).1).risky :=
  ⟨c8_entry_guards_and_summary.2.1 envYes [],
   (c8_entry_guards_and_summary.2.2.2 envYes [] ["user@corp.example", "bad"]
      (by decide) (by decide)).1,
   (c8_entry_guards_and_summary.2.2.2 envYes [] ["user@corp.example", "bad"]
      (by decide) (by decide)).2.2.2.2.2.2.2⟩

theorem lookupA_setA_isSome {β : Type} {l : List (String × β)}
    {k k' : String} {v : β} (h : (lookupA l k').isSome = true) :
    (lookupA (setA l k v) k').isSome = true := by
  induction l with
  | nil => simp [lookupA] at h
  | cons q rest ih =>
    rcases q with ⟨qk, qv⟩
    unfold lookupA at h
    unfold setA
    split
    · rename_i hqk
      unfold lookupA
      split
      · rfl
      · rename_i hkk
        rw [if_neg (by rw [hqk]; exact hkk)] at h
        exact h
    · rename_i hqk
      unfold lookupA
      split
      · rfl
      · rename_i hkne
        rw [if_neg hkne] at h
        exact ih h

theorem checkMXRecord_cache_super (env : DnsEnv) (cache : MxCache)
    (d : String) :
    (checkMXRecord env cache d).2.1 = cache ∨
      ∃ v, (checkMXRecord env cache d).2.1 = setA cache d v := by
  unfold checkMXRecord
  split
  · left; rfl
  · split
    · right; exact ⟨true, rfl⟩
    · split
      · right; exact ⟨true, rfl⟩
      · split
        · right; exact ⟨true, rfl⟩
        · right; exact ⟨_, rfl⟩

theorem checkMXRecord_trace_miss {env : DnsEnv} {cache : MxCache} {d : String}
    (hm : (checkMXRecord env cache d).2.2 ≠ []) : lookupA cache d = none := by
  rcases hl : lookupA cache d with _ | b
  · rfl
  · rw [checkMXRecord_cached hl] at hm
    exact absurd rfl hm

theorem resolveDomains_trace_fresh (env : DnsEnv) (ds : List String) :
    ∀ (cache : MxCache) (d : String),
      d ∈ (resolveDomains env cache ds).2.2 → lookupA cache d = none := by
  induction ds with
  | nil => intro cache d h; simp [resolveDomains] at h
  | cons d' rest ih =>
    intro cache d h
    unfold resolveDomains at h
    rcases List.mem_append.mp h with h | h
    · rcases ht : (checkMXRecord env cache d').2.2 with _ | ⟨a, t⟩
      · rw [ht] at h; simp at h
      · rcases checkMXRecord_trace env cache d' with ht' | ht' <;>
          rw [ht'] at h
        · simp at h
        · have : d = d' := by simpa using h
          subst this
          exact checkMXRecord_trace_miss (by rw [ht']; simp)
    · have h2 := ih ((checkMXRecord env cache d').2.1) d h
      rcases hl : lookupA cache d with _ | b
      · rfl
      · exfalso
        have hs : (lookupA cache d).isSome = true := by rw [hl]; rfl
        rcases checkMXRecord_cache_super env cache d' with hc | ⟨v, hc⟩
        · rw [hc, hl] at h2
          exact Option.noConfusion h2
        · have hs2 := @lookupA_setA_isSome Bool cache d' d v hs
          rw [← hc, h2] at hs2
          exact Bool.noConfusion hs2

/-- Claim C9, counterexample: the mailability cache is a module-level map,
so it does persist across separate batch invocations in one process — a
domain resolved mailable by a first batch is served from the cache in a
second batch run against a resolver that now answers no records at all: the
second batch performs no external query and still reports `valid`, while the
same batch on a fresh cache reports `invalid`. -/
theorem c9_counterexample :
    ((validateEmailBatch envNo
        ((validateEmailBatch envYes [] ["user@dom.example"]).2.1)
        ["user@dom.example"]).1.getD 0 defaultResult).status =
      EmailStatus.valid ∧
    (validateEmailBatch envNo
        ((validateEmailBatch envYes [] ["user@dom.example"]).2.1)
        ["user@dom.example"]).2.2 = [] ∧
    ((validateEmailBatch envNo [] ["user@dom.example"]).1.getD 0
        defaultResult).status = EmailStatus.invalid :=
  ⟨by decide, by decide, by decide⟩

/-- Claim C9 as amended: the per-domain mailability cache is module-scoped
and persists across batch invocations within one process: a cached domain is
served from the cache by any later `checkMXRecord` call regardless of the
resolver's current behavior, and a batch invocation only ever queries
domains absent from the cache it starts with. -/
theorem c9_cache_persists_across_batches :
    (∀ (env : DnsEnv) (cache : MxCache) (d : String) (b : Bool),
        lookupA cache d = some b → checkMXRecord env cache d = (b, cache, [])) ∧
    (∀ (env : DnsEnv) (cache : MxCache) (emails : List String) (d : String),
        d ∈ (validateEmailBatch env cache emails).2.2 →
          lookupA cache d = none) := by
  constructor
  · intro env cache d b h
    exact checkMXRecord_cached h
  · intro env cache emails d h
    exact resolveDomains_trace_fresh env (batchDomainList emails) cache d h

/-- Witness for the amended C9: a cached verdict is returned unchanged even
against a resolver that answers nothing. -/
theorem c9_witness :
    checkMXRecord envNo [("dom.example", true)] "dom.example" =
      (true, [("dom.example", true)], []) :=
  c9_cache_persists_across_batches.1 envNo [("dom.example", true)]
    "dom.example" true (by decide)

theorem checkMXRecord001_envOfMails (mails : String → Bool) (d : String) :
    checkMXRecord001 (envOfMails mails) d = mails d := by
  rcases hm : mails d <;> simp [checkMXRecord001, envOfMails, hm]

theorem batch_finalizeWith (mails : String → Bool) (emails : List String)
    (i : Nat) (h : i < emails.length) :
    (validateEmailBatch (envOfMails mails) [] emails).1.getD i defaultResult =
      finalizeWith mails (validateEmailSync (emails.getD i "")) := by
  rw [batch_getD _ _ _ _ h]
  cases hp : pendingP (validateEmailSync (emails.getD i ""))
  · rw [finalizeResult_not_pending hp]
    unfold finalizeWith
    rw [hp]
    rfl
  · have hre : (validateEmailSync (emails.getD i "")).email =
        normalize (emails.getD i "") := validateEmailSync_email _
    have hl : lookupA (batchResolved (envOfMails mails) [] emails).1
        (domainPartOf (validateEmailSync (emails.getD i "")).email) =
          some (mails (domainPartOf
            (validateEmailSync (emails.getD i "")).email)) := by
      rw [hre, batchResolved]
      exact resolveDomains_envOfMails (batchDomainList emails) []
        (by intro p hp'; simp at hp') _
        (mem_batchDomainList (getD_mem h) hp)
    cases hm : mails (domainPartOf (validateEmailSync (emails.getD i "")).email)
    · rw [finalizeResult_pending_false hp (by rw [hl, hm])]
      unfold finalizeWith
      rw [hp, if_pos rfl, if_neg (by rw [hm]; exact Bool.noConfusion)]
    · rw [finalizeResult_pending_not_false hp (by rw [hl, hm]; simp)]
      unfold finalizeWith
      rw [hp, if_pos rfl, if_pos (by rw [hm])]

theorem validateEmail001_agrees (mails : String → Bool) (e : String)
    (h1 : jsTrim e = e) (h2 : jsToLower e = e) :
    sameOutcome (finalizeWith mails (validateEmailSync e))
      (validateEmail001 (envOfMails mails) e) := by
  have hn : normalize e = e := by rw [normalize, h1, h2]
  have ht : checkTypo001 e = checkTypo (domainPartOf (normalize e)) := by
    rw [checkTypo001, checkTypo, h2, hn]
  have hd : checkDisposable001 e = checkDisposable (domainPartOf (normalize e)) := by
    rw [checkDisposable001, checkDisposable, h2, hn]
  have hrb : checkRoleBased001 e = checkRoleBased (localPartOf (normalize e)) := by
    rw [checkRoleBased001, checkRoleBased, h2, hn]
  have hg : getDomain e = domainPartOf (normalize e) := by
    rw [getDomain, h2, hn]
  unfold validateEmail001 validateEmailSync
  rw [ht, hd, hrb, hg, checkMXRecord001_envOfMails]
  cases hv : (validateEmailSyntax e).valid
  · simp [finalizeWith, pendingP, sameOutcome]
  · simp only [Bool.not_true, Bool.false_eq_true, if_false]
    cases hty : checkTypo (domainPartOf (normalize e))
    case some c =>
      simp [finalizeWith, pendingP, sameOutcome, hn]
    case none =>
      cases hdi : checkDisposable (domainPartOf (normalize e))
      case true =>
        simp [finalizeWith, pendingP, sameOutcome]
      case false =>
        cases hro : checkRoleBased (localPartOf (normalize e))
        case true =>
          simp [finalizeWith, pendingP, sameOutcome]
        case false =>
          cases hm : mails (domainPartOf (normalize e)) <;>
            rw [hn] at hm <;>
            simp [finalizeWith, pendingP, sameOutcome, hm, hn]

/-- Claim C10, counterexample: on the input `"User@gmial.com"` and an
error-free resolver answering mailable for every domain, the batch pipeline
suggests `"user@gmail.com"` (built from the normalized local part) while the
naive per-address pipeline suggests `"User@gmail.com"` (built from the raw
local part), so the two pipelines do not agree on all inputs. -/
theorem c10_counterexample :
    ((validateEmailBatch (envOfMails fun _ => true) []
        ["User@gmial.com"]).1.getD 0 defaultResult).suggestion =
      some "user@gmail.com" ∧
    (validateEmail001 (envOfMails fun _ => true) "User@gmial.com").suggestion =
      some "User@gmail.com" ∧
    some ("user@gmail.com" : String) ≠ some ("User@gmail.com" : String) :=
  ⟨by decide, by decide, by decide⟩

/-- Claim C10 as amended: under an error-free resolver realizing a fixed
per-domain mailability answer, and starting from a fresh cache, the
deduplicating batch pipeline and the naive per-address pipeline agree on
`email`, `status`, `reason`, and `suggestion` (the per-check flags ignored)
for every input list whose entries are unchanged by trimming and
lower-casing; for general inputs they can differ, because the naive pipeline
applies the pattern and domain checks to the un-trimmed string and builds
its typo suggestion from the raw local part. -/
theorem c10_pipelines_agree_on_normalized_inputs (mails : String → Bool)
    (emails : List String)
    (hnorm : ∀ e ∈ emails, jsTrim e = e ∧ jsToLower e = e)
    (i : Nat) (h : i < emails.length) :
    sameOutcome
      ((validateEmailBatch (envOfMails mails) [] emails).1.getD i defaultResult)
      (validateEmail001 (envOfMails mails) (emails.getD i "")) := by
  rw [batch_finalizeWith mails emails i h]
  obtain ⟨ht, hl⟩ := hnorm _ (getD_mem h)
  exact validateEmail001_agrees mails _ ht hl

/-- Witness for the amended C10 on a concrete normalized input. -/
theorem c10_witness :
    sameOutcome
      ((validateEmailBatch (envOfMails fun _ => true) []
          ["user@corp.example"]).1.getD 0 defaultResult)
      (validateEmail001 (envOfMails fun _ => true) "user@corp.example") :=
  c10_pipelines_agree_on_normalized_inputs (fun _ => true)
    ["user@corp.example"] (by decide) 0 (by decide)

end EmailVerifier
